import Mathlib

/-!
Verification of the mrcap-app-backend Position & Summary Engine.

Shallow embedding of the derivation engine of `app/db_models.py` (account
summaries, fund positions, latest-NAV resolution, fund performance) and of the
result models of `app/models.py`.  The database tables are modelled as lists of
rows inside a `Db` value; SQL aggregation queries are translated query by query,
keeping the source's aggregation, filtering and ordering semantics.  Monetary
`numeric` values are modelled as exact rationals (`Rat`): Postgres `numeric`
and Python `Decimal` arithmetic on the operations the engine performs
(addition, subtraction, multiplication, comparison) is exact, so it embeds
faithfully into `Rat`.  Dates and timestamps are modelled as integers (only
their ordering matters to the engine).  Row-id columns are assumed unique, as
the primary-key constraints of the schema guarantee; joins are therefore
modelled with `List.find?` / `List.any` lookups.
-/

namespace MrCap

/-- Row of the `accounts` table: the columns the engine references
(db_models.py, `_get_account_summaries`).  `commission_rate` is `none` when the
stored value is NULL; whether the column exists at all on the deployment is
recorded in `Db.hasCommissionRateColumn`. -/
structure AccountRow where
  id : Int
  user_id : Int
  account_number : String
  commission_rate : Option Rat
deriving DecidableEq

/-- Row of the `app_users` table (columns the summary query reads). -/
structure AppUserRow where
  id : Int
  full_name : String
  email : String
deriving DecidableEq

/-- Row of the `cash_movements` table (columns the summary query reads).
`type` is one of 'deposit', 'withdrawal', 'fee' in well-formed data; the SQL
CASE expressions treat any other string as contributing zero. -/
structure CashMovementRow where
  id : Int
  account_id : Int
  type : String
  amount : Rat
deriving DecidableEq

/-- Row of the `fund_share_movements` table (columns the position query reads).
`type` is 'subscription' or 'redemption' in well-formed data. -/
structure FundShareMovementRow where
  id : Int
  account_id : Int
  fund_id : Int
  type : String
  shares_change : Rat
deriving DecidableEq

/-- Row of the `funds` reference table. -/
structure FundRow where
  id : Int
  name : String
  currency : String
deriving DecidableEq

/-- Row of the `fund_navs` table (one NAV observation). -/
structure NavRow where
  id : Int
  fund_id : Int
  as_of_date : Int
  share_value : Rat
  fund_accumulated : Rat
  shares_amount : Rat
  delta_previous : Option Rat
  delta_since_origin : Option Rat
  created_at : Int
deriving DecidableEq

/-- The database state the engine reads.  `hasCommissionRateColumn` models the
`information_schema.columns` probe of db_models.py:186-194: the optional
`commission_rate` column may or may not exist on a deployment. -/
structure Db where
  accounts : List AccountRow
  app_users : List AppUserRow
  cash_movements : List CashMovementRow
  fund_share_movements : List FundShareMovementRow
  funds : List FundRow
  fund_navs : List NavRow
  hasCommissionRateColumn : Bool
deriving DecidableEq

/-- Result model `FundPosition` (models.py:174-187).  The pydantic model
renders decimals as strings; we keep the exact values. -/
structure FundPosition where
  fund_id : Int
  fund_name : String
  currency : String
  total_shares : Rat
  latest_share_value : Option Rat
  market_value : Option Rat
deriving DecidableEq

/-- Result model `AccountSummary` (models.py:190-206).  Note the pydantic class
declares exactly these fields; in particular it declares NO `commission_rate`
field. -/
structure AccountSummary where
  account_id : Int
  account_number : String
  total_deposits : Rat
  total_withdrawals : Rat
  total_fees : Rat
  net_invested : Rat
  positions : List FundPosition
  user_full_name : Option String
  user_email : Option String
deriving DecidableEq

/-- The field names the pydantic `AccountSummary` class declares
(models.py:190-199), in declaration order. -/
def accountSummaryFieldNames : List String :=
  ["account_id", "account_number", "total_deposits", "total_withdrawals",
   "total_fees", "net_invested", "positions", "user_full_name", "user_email"]

/-- Result model `FundNavPoint` (models.py:209-215). -/
structure FundNavPoint where
  as_of_date : Int
  fund_accumulated : Rat
  shares_amount : Rat
  share_value : Rat
  delta_previous : Option Rat
  delta_since_origin : Option Rat
deriving DecidableEq

/-- Result model `FundPerformance` (models.py:280-285). -/
structure FundPerformance where
  fund_id : Int
  fund_name : String
  currency : String
  latest_share_value : Option Rat
  navs : List FundNavPoint
deriving DecidableEq

/-! Ordering relations used to model SQL ORDER BY clauses and Python sorts. -/

/-- Order by a single key, ascending. -/
def keyLE {g a : Type} [LinearOrder a] (f : g → a) (x y : g) : Prop :=
  f x ≤ f y

/-- Order by a single key, descending. -/
def keyDescLE {g a : Type} [LinearOrder a] (f : g → a) (x y : g) : Prop :=
  f y ≤ f x

/-- Lexicographic order by two keys, both ascending. -/
def lex2 {g a b : Type} [LinearOrder a] [LinearOrder b]
    (f : g → a) (f2 : g → b) (x y : g) : Prop :=
  f x < f y ∨ (f x = f y ∧ f2 x ≤ f2 y)

instance {g a : Type} [LinearOrder a] (f : g → a) : DecidableRel (keyLE f) :=
  fun x y => inferInstanceAs (Decidable (f x ≤ f y))

instance {g a : Type} [LinearOrder a] (f : g → a) : IsTotal g (keyLE f) :=
  ⟨fun x y => le_total (f x) (f y)⟩

instance {g a : Type} [LinearOrder a] (f : g → a) : IsTrans g (keyLE f) :=
  ⟨fun _ _ _ h1 h2 => le_trans h1 h2⟩

instance {g a : Type} [LinearOrder a] (f : g → a) : DecidableRel (keyDescLE f) :=
  fun x y => inferInstanceAs (Decidable (f y ≤ f x))

instance {g a : Type} [LinearOrder a] (f : g → a) : IsTotal g (keyDescLE f) :=
  ⟨fun x y => (le_total (f y) (f x)).imp id id⟩

instance {g a : Type} [LinearOrder a] (f : g → a) : IsTrans g (keyDescLE f) :=
  ⟨fun _ _ _ h1 h2 => le_trans h2 h1⟩

instance {g a b : Type} [LinearOrder a] [LinearOrder b] (f : g → a) (f2 : g → b) :
    DecidableRel (lex2 f f2) :=
  fun x y => inferInstanceAs (Decidable (f x < f y ∨ (f x = f y ∧ f2 x ≤ f2 y)))

instance {g a b : Type} [LinearOrder a] [LinearOrder b] (f : g → a) (f2 : g → b) :
    IsTotal g (lex2 f f2) := by
  refine ⟨fun x y => ?_⟩
  rcases lt_trichotomy (f x) (f y) with h | h | h
  · exact Or.inl (Or.inl h)
  · rcases le_total (f2 x) (f2 y) with hg | hg
    · exact Or.inl (Or.inr ⟨h, hg⟩)
    · exact Or.inr (Or.inr ⟨h.symm, hg⟩)
  · exact Or.inr (Or.inl h)

instance {g a b : Type} [LinearOrder a] [LinearOrder b] (f : g → a) (f2 : g → b) :
    IsTrans g (lex2 f f2) := by
  refine ⟨fun x y z hxy hyz => ?_⟩
  rcases hxy with h1 | ⟨e1, l1⟩ <;> rcases hyz with h2 | ⟨e2, l2⟩
  · exact Or.inl (lt_trans h1 h2)
  · exact Or.inl (e2 ▸ h1)
  · exact Or.inl (e1 ▸ h2)
  · exact Or.inr ⟨e1.trans e2, le_trans l1 l2⟩

/-! The latest-NAV resolver.  Both `FundRepository.get_latest_navs_map`
(db_models.py:766-782) and the summary engine (db_models.py:253-266) run

  SELECT DISTINCT ON (fund_id) fund_id, share_value, fund_accumulated, as_of_date
  FROM fund_navs ORDER BY fund_id, as_of_date DESC

DISTINCT ON keeps, per fund, the first row of the ORDER BY order.  The ORDER BY
names only `as_of_date DESC` after the fund id — no `created_at` key — so among
rows sharing the maximal `as_of_date` the first row of the table scan is kept.
We model the scan deterministically as the list order of `Db.fund_navs`: the
fold below keeps the earliest-scanned row among those with maximal
`as_of_date`. -/

/-- One step of the maximum-date selection: keep the later-dated row, keeping
the incumbent on ties. -/
def pickLaterNav (best : Option NavRow) (r : NavRow) : Option NavRow :=
  match best with
  | none => some r
  | some b => if b.as_of_date < r.as_of_date then some r else some b

/-- Latest-NAV resolution for one fund, as the DISTINCT ON query computes it. -/
def latestNavForFund (db : Db) (fid : Int) : Option NavRow :=
  (db.fund_navs.filter (fun r => r.fund_id == fid)).foldl pickLaterNav none

/-! Cash aggregation: the first query of `_get_account_summaries`
(db_models.py:197-216) LEFT JOINs `cash_movements` per account and sums
`CASE WHEN cm.type = '<ty>' THEN cm.amount ELSE 0 END` (COALESCE to 0). -/

/-- Sum of amounts of the account's cash movements of the given type. -/
def cashTotal (db : Db) (aid : Int) (ty : String) : Rat :=
  ((db.cash_movements.filter (fun m => m.account_id == aid)).map
    (fun m => if m.type == ty then m.amount else 0)).sum

/-! Position aggregation: the CTE of db_models.py:222-248 joins
accounts × app_users × fund_share_movements × funds, groups by
(account, fund) and sums
  CASE WHEN fsm.type = 'subscription' THEN fsm.shares_change
       WHEN fsm.type = 'redemption' THEN -fsm.shares_change
       ELSE 0 END,
then keeps the groups with a non-zero sum, ordered by account_id, fund_name. -/

/-- The CASE expression of the position query. -/
def shareContribution (m : FundShareMovementRow) : Rat :=
  if m.type == "subscription" then m.shares_change
  else if m.type == "redemption" then -m.shares_change
  else 0

/-- Net shares of an (account, fund) pair over the whole movements table. -/
def netSharesPair (db : Db) (aid fid : Int) : Rat :=
  ((db.fund_share_movements.filter
      (fun m => m.account_id == aid && m.fund_id == fid)).map shareContribution).sum

/-- Sum of `shares_change` over the pair's subscription movements. -/
def subscriptionSum (db : Db) (aid fid : Int) : Rat :=
  (((db.fund_share_movements.filter
      (fun m => m.account_id == aid && m.fund_id == fid)).filter
        (fun m => m.type == "subscription")).map (fun m => m.shares_change)).sum

/-- Sum of `shares_change` over the pair's redemption movements. -/
def redemptionSum (db : Db) (aid fid : Int) : Rat :=
  (((db.fund_share_movements.filter
      (fun m => m.account_id == aid && m.fund_id == fid)).filter
        (fun m => m.type == "redemption")).map (fun m => m.shares_change)).sum

/-- The optional `WHERE a.user_id = %s` filter of `_get_account_summaries`. -/
def userMatches (fu : Option Int) (a : AccountRow) : Bool :=
  match fu with
  | none => true
  | some uid => a.user_id == uid

/-- Whether a movement's account joins through `accounts` and `app_users`
under the optional user filter. -/
def accountPasses (db : Db) (fu : Option Int) (aid : Int) : Bool :=
  db.accounts.any (fun a =>
    a.id == aid && userMatches fu a && db.app_users.any (fun u => u.id == a.user_id))

/-- Whether a fund id joins through the `funds` table. -/
def fundExistsB (db : Db) (fid : Int) : Bool :=
  db.funds.any (fun f => f.id == fid)

/-- The joined `fund_share_movements` rows of the position CTE. -/
def fsmJoined (db : Db) (fu : Option Int) : List FundShareMovementRow :=
  db.fund_share_movements.filter
    (fun m => accountPasses db fu m.account_id && fundExistsB db m.fund_id)

/-- One row of the position CTE of db_models.py:224-243. -/
structure PosRow where
  account_id : Int
  fund_id : Int
  fund_name : String
  currency : String
  total_shares : Rat
deriving DecidableEq

/-- The GROUP BY keys of the position CTE: the distinct (account, fund) pairs
among the joined movements. -/
def positionGroupKeys (db : Db) (fu : Option Int) : List (Int × Int) :=
  ((fsmJoined db fu).map (fun m => (m.account_id, m.fund_id))).dedup

/-- Net shares of a pair computed over the joined movements only. -/
def netSharesJoined (db : Db) (fu : Option Int) (aid fid : Int) : Rat :=
  (((fsmJoined db fu).filter
      (fun m => m.account_id == aid && m.fund_id == fid)).map shareContribution).sum

/-- The position query result: grouped sums, groups with zero total dropped
(`WHERE total_shares <> 0`), ordered by `account_id, fund_name`
(db_models.py:244-247). -/
def positionRows (db : Db) (fu : Option Int) : List PosRow :=
  List.insertionSort (lex2 (fun p : PosRow => p.account_id) (fun p => p.fund_name))
    (((positionGroupKeys db fu).filterMap (fun k =>
        (db.funds.find? (fun f => f.id == k.2)).map (fun f =>
          { account_id := k.1, fund_id := k.2, fund_name := f.name,
            currency := f.currency,
            total_shares := netSharesJoined db fu k.1 k.2 : PosRow }))).filter
      (fun p => decide (p.total_shares ≠ 0)))

/-- The `positions_map` entries of one account (db_models.py:250-251), in
query order. -/
def positionsFor (db : Db) (fu : Option Int) (aid : Int) : List PosRow :=
  (positionRows db fu).filter (fun p => p.account_id == aid)

/-- Building one `FundPosition` from a position row and the latest-NAV map
(db_models.py:278-296): an unresolved NAV yields `latest_share_value = None`
and `market_value = None`; a resolved one yields
`market_value = total_shares * share_value`. -/
def toFundPosition (db : Db) (p : PosRow) : FundPosition :=
  match latestNavForFund db p.fund_id with
  | none =>
      { fund_id := p.fund_id, fund_name := p.fund_name, currency := p.currency,
        total_shares := p.total_shares, latest_share_value := none,
        market_value := none }
  | some nav =>
      { fund_id := p.fund_id, fund_name := p.fund_name, currency := p.currency,
        total_shares := p.total_shares, latest_share_value := some nav.share_value,
        market_value := some (p.total_shares * nav.share_value) }

/-- The `total_market_value` accumulator of db_models.py:276-285: positions
whose fund has no resolved NAV are skipped (contribute nothing). -/
def totalMarketValueFor (db : Db) (fu : Option Int) (aid : Int) : Rat :=
  (positionsFor db fu aid).foldl
    (fun acc p =>
      match latestNavForFund db p.fund_id with
      | none => acc
      | some nav => acc + p.total_shares * nav.share_value)
    0

/-- One row of the first (account/cash aggregation) query of
`_get_account_summaries` (db_models.py:197-217).  `commission_rate` is the
selected column value: NULL when the column is absent from the deployment. -/
structure AcctAggRow where
  account_id : Int
  account_number : String
  commission_rate : Option Rat
  full_name : String
  email : String
  total_deposits : Rat
  total_withdrawals : Rat
  total_fees : Rat
deriving DecidableEq

/-- The account rows of the first query, ordered by
`u.full_name, a.account_number`. -/
def accountRowsQuery (db : Db) (fu : Option Int) : List AcctAggRow :=
  List.insertionSort (lex2 (fun r : AcctAggRow => r.full_name) (fun r => r.account_number))
    ((db.accounts.filter (userMatches fu)).filterMap (fun a =>
      (db.app_users.find? (fun u => u.id == a.user_id)).map (fun u =>
        { account_id := a.id, account_number := a.account_number,
          commission_rate := if db.hasCommissionRateColumn then a.commission_rate else none,
          full_name := u.full_name, email := u.email,
          total_deposits := cashTotal db a.id "deposit",
          total_withdrawals := cashTotal db a.id "withdrawal",
          total_fees := cashTotal db a.id "fee" : AcctAggRow })))

/-- The effective commission rate of an account: the code converts a NULL (or
absent-column) rate to `Decimal("0")` (db_models.py:300-310). -/
def effectiveCommissionRate (db : Db) (a : AccountRow) : Rat :=
  (if db.hasCommissionRateColumn then a.commission_rate else none).getD 0

/-- Construction of the pydantic `AccountSummary` from the `account_data` dict
of db_models.py:333-346.  The dict carries a `commission_rate` entry, but the
pydantic class (models.py:190-206) declares no such field and pydantic ignores
extra keys, so the value — here the `commission_rate_value` argument — is
dropped; it does not occur in the result. -/
def mkAccountSummary (account_id : Int) (account_number : String)
    (commission_rate_value : Option Rat)
    (total_deposits total_withdrawals total_fees net_invested : Rat)
    (positions : List FundPosition)
    (user_full_name user_email : Option String) : AccountSummary :=
  { account_id := account_id, account_number := account_number,
    total_deposits := total_deposits, total_withdrawals := total_withdrawals,
    total_fees := total_fees, net_invested := net_invested,
    positions := positions, user_full_name := user_full_name,
    user_email := user_email }

/-- The per-account body of the summary loop (db_models.py:269-346):
positions with market values, commission on positive gains, total fees and net
invested.  `commission_rate_value` models
`str(commission_rate) if commission_rate else None` (db_models.py:330),
carrying the rate value (`Decimal("0")` is falsy in Python). -/
def buildSummary (db : Db) (fu : Option Int) (row : AcctAggRow) : AccountSummary :=
  let positions := (positionsFor db fu row.account_id).map (toFundPosition db)
  let total_market_value := totalMarketValueFor db fu row.account_id
  let commission_rate : Rat := row.commission_rate.getD 0
  let net_invested_before_commissions :=
    row.total_deposits - row.total_withdrawals - row.total_fees
  let total_gains := total_market_value - net_invested_before_commissions
  let calculated_commissions : Rat :=
    if 0 < total_gains then total_gains * commission_rate else 0
  let total_fees := row.total_fees + calculated_commissions
  let net_invested := row.total_deposits - row.total_withdrawals - total_fees
  let commission_rate_value : Option Rat :=
    if commission_rate = 0 then none else some commission_rate
  mkAccountSummary row.account_id row.account_number commission_rate_value
    row.total_deposits row.total_withdrawals total_fees net_invested positions
    (some row.full_name) (some row.email)

/-- Embedding of `AccountRepository._get_account_summaries` (db_models.py:176-349). -/
def getAccountSummaries (db : Db) (fu : Option Int) : List AccountSummary :=
  (accountRowsQuery db fu).map (buildSummary db fu)

/-! Fund performance (FundRepository, db_models.py:784-890, and the router
app/routers/funds.py). -/

/-- Conversion of a NAV row to the `FundNavPoint` result model. -/
def toNavPoint (r : NavRow) : FundNavPoint :=
  { as_of_date := r.as_of_date, fund_accumulated := r.fund_accumulated,
    shares_amount := r.shares_amount, share_value := r.share_value,
    delta_previous := r.delta_previous, delta_since_origin := r.delta_since_origin }

/-- The per-fund NAV query of `get_fund_performance_by_id`:
`WHERE fund_id = %s ORDER BY as_of_date DESC` (db_models.py:795-810). -/
def navRowsDescFor (db : Db) (fid : Int) : List NavRow :=
  List.insertionSort (keyDescLE (fun r : NavRow => r.as_of_date))
    (db.fund_navs.filter (fun r => r.fund_id == fid))

/-- The effective LIMIT, `limit if limit else 365` (db_models.py:809): Python treats
both `None` and `0` as falsy. -/
def effLimit : Option Nat → Nat
  | none => 365
  | some l => if l = 0 then 365 else l

/-- The chronological sort `navs.sort(key=lambda n: n.as_of_date)` (db_models.py:826). -/
def sortPointsAsc (l : List FundNavPoint) : List FundNavPoint :=
  List.insertionSort (keyLE (fun p : FundNavPoint => p.as_of_date)) l

/-- Embedding of `FundRepository.get_fund_performance_by_id` (db_models.py:784-835). -/
def get_fund_performance_by_id (db : Db) (fund_id : Int) (limit : Option Nat) :
    Option FundPerformance :=
  match db.funds.find? (fun f => f.id == fund_id) with
  | none => none
  | some fund_row =>
      let rows := (navRowsDescFor db fund_id).take (effLimit limit)
      let navs := sortPointsAsc (rows.map toNavPoint)
      some { fund_id := fund_id, fund_name := fund_row.name,
             currency := fund_row.currency,
             latest_share_value := navs.getLast?.map (fun p => p.share_value),
             navs := navs }

/-- The `/funds/{fund_id}/performance` route (app/routers/funds.py:39-52):
a `None` repository result becomes HTTP 404. -/
def getFundPerformanceByIdEndpoint (db : Db) (fund_id : Int) (limit : Option Nat) :
    Except Nat FundPerformance :=
  match get_fund_performance_by_id db fund_id limit with
  | none => Except.error 404
  | some p => Except.ok p

/-- One row of the all-funds query of `get_fund_performance`
(db_models.py:841-857): `FROM funds f JOIN fund_navs fn ON fn.fund_id = f.id`
— an inner join. -/
structure PerfJoinRow where
  fund : FundRow
  nav : NavRow
deriving DecidableEq

/-- The all-funds query rows, `ORDER BY f.id, fn.as_of_date DESC` (the
descending second key is realised as the ascending order of the negated
date). -/
def perfJoinRows (db : Db) : List PerfJoinRow :=
  List.insertionSort (lex2 (fun r : PerfJoinRow => r.fund.id) (fun r => -r.nav.as_of_date))
    (db.funds.flatMap (fun f =>
      (db.fund_navs.filter (fun n => n.fund_id == f.id)).map
        (fun n => { fund := f, nav := n : PerfJoinRow })))

/-- Whether `len(perf["navs"]) < limit` allows appending another point
(db_models.py:872). -/
def limitAllows (limit : Option Nat) (len : Nat) : Bool :=
  match limit with
  | none => true
  | some l => len < l

/-- One iteration of the `funds_map` loop of db_models.py:861-882: `setdefault`
creates the fund's entry on its first row (recording that row's `share_value`
as the latest), later rows append NAV points while under the limit.  The
association list keeps dict insertion order. -/
def addPerfRow (limit : Option Nat) :
    List FundPerformance → PerfJoinRow → List FundPerformance
  | [], r =>
      [{ fund_id := r.fund.id, fund_name := r.fund.name, currency := r.fund.currency,
         latest_share_value := some r.nav.share_value, navs := [toNavPoint r.nav] }]
  | p :: ps, r =>
      if p.fund_id = r.fund.id then
        (if limitAllows limit p.navs.length then
          { p with navs := p.navs ++ [toNavPoint r.nav] }
         else p) :: ps
      else
        p :: addPerfRow limit ps r

/-- Embedding of `FundRepository.get_fund_performance` (db_models.py:837-890): build the
per-fund entries from the joined rows, then sort each fund's points
chronologically. -/
def get_fund_performance (db : Db) (limit : Option Nat) : List FundPerformance :=
  ((perfJoinRows db).foldl (addPerfRow limit) []).map
    (fun p => { p with navs := sortPointsAsc p.navs })

/-! The fund-share-movement store (MovementRepository, db_models.py:520-552).
The decimal columns are carried as decimal strings: the pydantic models
(models.py:105-121) convert `Decimal` to `str` on construction. -/

/-- A persisted `fund_share_movements` row as `FundShareMovement` reports it
(models.py:142-147), the decimal columns as decimal strings. -/
structure FundShareMovementRec where
  id : Int
  account_id : Int
  fund_id : Int
  cash_movement_id : Option Int
  type : String
  shares_change : String
  share_price : String
  total_amount : String
  effective_date : Int
  created_at : Int
deriving DecidableEq

/-- The fields of `FundShareMovementCreate` (models.py:123-124). -/
structure FundShareMovementCreateData where
  account_id : Int
  fund_id : Int
  cash_movement_id : Option Int
  type : String
  shares_change : String
  share_price : String
  total_amount : String
  effective_date : Int
deriving DecidableEq

/-- The `fund_share_movements` table with its id sequence and clock. -/
structure FsmStore where
  rows : List FundShareMovementRec
  next_id : Int
  clock : Int
deriving DecidableEq

/-- Modelled from the spec: the persistence layer behind
`MovementRepository.create_fund_share_movement` (db_models.py:520-541) is
Postgres, which is outside the repository.  Spec §6 fixes its interface
contract: "All decimal-typed fields must round-trip through the interface
boundary as exact-precision decimal strings, never as binary floating point";
a `numeric` column stores the exact decimal value, and the pydantic
`str()` validator is the identity on decimal strings — so the INSERT …
RETURNING * is modelled as appending a row that carries the given decimal
strings unchanged, with a fresh id and the current timestamp. -/
def create_fund_share_movement (st : FsmStore) (d : FundShareMovementCreateData) :
    FsmStore × FundShareMovementRec :=
  let row : FundShareMovementRec :=
    { id := st.next_id, account_id := d.account_id, fund_id := d.fund_id,
      cash_movement_id := d.cash_movement_id, type := d.type,
      shares_change := d.shares_change, share_price := d.share_price,
      total_amount := d.total_amount, effective_date := d.effective_date,
      created_at := st.clock }
  ({ rows := st.rows ++ [row], next_id := st.next_id + 1, clock := st.clock + 1 }, row)

/-- Embedding of `MovementRepository.find_fund_share_movement_by_id` (db_models.py:543-552):
SELECT * FROM fund_share_movements WHERE id = %s. -/
def find_fund_share_movement_by_id (st : FsmStore) (movement_id : Int) :
    Option FundShareMovementRec :=
  st.rows.find? (fun r => r.id == movement_id)

/-! ### Lemmas about the latest-NAV fold -/

/-- The maximum-date fold started at `some b` picks an element of `b :: l`:
all strictly earlier-scanned elements have a strictly smaller date, all
later-scanned ones a smaller-or-equal date. -/
theorem foldl_pickLaterNav_spec (l : List NavRow) (b : NavRow) :
    ∃ r l1 l2, l.foldl pickLaterNav (some b) = some r ∧
      b :: l = l1 ++ r :: l2 ∧
      (∀ q ∈ l1, q.as_of_date < r.as_of_date) ∧
      (∀ q ∈ l2, q.as_of_date ≤ r.as_of_date) := by
  induction l generalizing b with
  | nil =>
      exact ⟨b, [], [], rfl, rfl, by simp, by simp⟩
  | cons x xs ih =>
      by_cases h : b.as_of_date < x.as_of_date
      · obtain ⟨r, l1, l2, hfold, hdec, hlt, hle⟩ := ih x
        refine ⟨r, b :: l1, l2, ?_, ?_, ?_, hle⟩
        · simpa [List.foldl_cons, pickLaterNav, h] using hfold
        · simpa using congrArg (List.cons b) hdec
        · intro q hq
          rcases List.mem_cons.mp hq with hq | hq
          · rw [hq]
            cases l1 with
            | nil =>
                have hxr : x = r := by simpa using congrArg (fun t => t.head?) hdec
                exact hxr ▸ h
            | cons y l1' =>
                have hy : x = y := by simpa using congrArg (fun t => t.head?) hdec
                have hx : x ∈ y :: l1' := by simp [hy]
                exact lt_trans h (hlt x hx)
          · exact hlt q hq
      · obtain ⟨r, l1, l2, hfold, hdec, hlt, hle⟩ := ih b
        have hxb : x.as_of_date ≤ b.as_of_date := le_of_not_lt h
        cases l1 with
        | nil =>
            have hrb : b = r := by simpa using congrArg (fun t => t.head?) hdec
            have hl2 : xs = l2 := by simpa [← hrb] using congrArg (fun t => t.tail) hdec
            refine ⟨r, [], x :: l2, ?_, by simp [← hrb, ← hl2], by simp, ?_⟩
            · simpa [List.foldl_cons, pickLaterNav, h] using hfold
            · intro q hq
              rcases List.mem_cons.mp hq with hq | hq
              · rw [hq]
                exact hrb ▸ hxb
              · exact hle q hq
        | cons y l1' =>
            have hy : b = y := by simpa using congrArg (fun t => t.head?) hdec
            have hxs : xs = l1' ++ r :: l2 := by
              simpa using congrArg (fun t => t.tail) hdec
            have hbr : b.as_of_date < r.as_of_date := hlt b (by simp [← hy])
            refine ⟨r, b :: x :: l1', l2, ?_, by simp [hxs], ?_, hle⟩
            · simpa [List.foldl_cons, pickLaterNav, h] using hfold
            · intro q hq
              rcases List.mem_cons.mp hq with hq | hq
              · subst hq; exact hbr
              · rcases List.mem_cons.mp hq with hq | hq
                · subst hq; exact lt_of_le_of_lt hxb hbr
                · exact hlt q (by simp [hy, hq])

/-- Decomposition of the latest-NAV resolution: the selected row splits the
fund's scan into strictly-older rows before it and no-newer rows after it. -/
theorem latestNavForFund_spec (db : Db) (fid : Int) (r : NavRow)
    (h : latestNavForFund db fid = some r) :
    ∃ l1 l2, db.fund_navs.filter (fun x => x.fund_id == fid) = l1 ++ r :: l2 ∧
      (∀ q ∈ l1, q.as_of_date < r.as_of_date) ∧
      (∀ q ∈ l2, q.as_of_date ≤ r.as_of_date) := by
  unfold latestNavForFund at h
  cases hfl : db.fund_navs.filter (fun x => x.fund_id == fid) with
  | nil => rw [hfl] at h; simp at h
  | cons b xs =>
      rw [hfl] at h
      obtain ⟨r', l1, l2, hfold, hdec, hlt, hle⟩ := foldl_pickLaterNav_spec xs b
      rw [List.foldl_cons] at h
      have : pickLaterNav none b = some b := rfl
      rw [this] at h
      rw [hfold] at h
      obtain rfl : r' = r := by injection h
      exact ⟨l1, l2, hdec, hlt, hle⟩

/-! ### C2: latest-NAV resolution -/

/-- C2 (amended). The latest-NAV resolution selects a row of the fund with
maximal `as_of_date`; among rows sharing that maximal date it selects the
first one in the query's scan order (all same-fund rows scanned before the
selected one have a strictly smaller date) — `created_at` is not consulted. -/
theorem c2_latest_nav_resolution (db : Db) (fid : Int) (r : NavRow)
    (h : latestNavForFund db fid = some r) :
    r ∈ db.fund_navs ∧ r.fund_id = fid ∧
      (∀ q ∈ db.fund_navs, q.fund_id = fid → q.as_of_date ≤ r.as_of_date) ∧
      ∃ l1 l2, db.fund_navs.filter (fun x => x.fund_id == fid) = l1 ++ r :: l2 ∧
        ∀ q ∈ l1, q.as_of_date < r.as_of_date := by
  obtain ⟨l1, l2, hdec, hlt, hle⟩ := latestNavForFund_spec db fid r h
  have hrmem : r ∈ db.fund_navs.filter (fun x => x.fund_id == fid) := by
    rw [hdec]
    exact List.mem_append_right _ (List.mem_cons_self _ _)
  have hr := List.mem_filter.mp hrmem
  refine ⟨hr.1, by simpa using hr.2, ?_, l1, l2, hdec, hlt⟩
  intro q hq hqf
  have hqmem : q ∈ db.fund_navs.filter (fun x => x.fund_id == fid) :=
    List.mem_filter.mpr ⟨hq, by simpa using hqf⟩
  rw [hdec] at hqmem
  rcases List.mem_append.mp hqmem with hq1 | hq2
  · exact le_of_lt (hlt q hq1)
  · rcases List.mem_cons.mp hq2 with rfl | hq2
    · exact le_refl _
    · exact hle q hq2

/-- A NAV observation dated 3. -/
def navD3 : NavRow :=
  { id := 1, fund_id := 1, as_of_date := 3, share_value := 100,
    fund_accumulated := 0, shares_amount := 0, delta_previous := none,
    delta_since_origin := none, created_at := 10 }

/-- A NAV observation dated 5 for the same fund. -/
def navD5 : NavRow :=
  { id := 2, fund_id := 1, as_of_date := 5, share_value := 110,
    fund_accumulated := 0, shares_amount := 0, delta_previous := none,
    delta_since_origin := none, created_at := 11 }

/-- A database holding the two NAV observations of fund 1. -/
def dbNavW : Db :=
  { accounts := [], app_users := [], cash_movements := [],
    fund_share_movements := [], funds := [], fund_navs := [navD3, navD5],
    hasCommissionRateColumn := false }

/-- Witness for C2: on the two-row database the resolution picks the row dated
5 and the stated properties hold for it. -/
theorem c2_latest_nav_resolution_witness :
    navD5 ∈ dbNavW.fund_navs ∧ navD5.fund_id = 1 ∧
      (∀ q ∈ dbNavW.fund_navs, q.fund_id = 1 → q.as_of_date ≤ navD5.as_of_date) ∧
      ∃ l1 l2, dbNavW.fund_navs.filter (fun x => x.fund_id == 1) = l1 ++ navD5 :: l2 ∧
        ∀ q ∈ l1, q.as_of_date < navD5.as_of_date :=
  c2_latest_nav_resolution dbNavW 1 navD5 (by decide)

/-- A NAV row dated 5 with the earlier creation timestamp, scanned first. -/
def navTieOld : NavRow :=
  { id := 1, fund_id := 1, as_of_date := 5, share_value := 100,
    fund_accumulated := 0, shares_amount := 0, delta_previous := none,
    delta_since_origin := none, created_at := 1 }

/-- A NAV row for the same fund and date with the later creation timestamp. -/
def navTieNew : NavRow :=
  { id := 2, fund_id := 1, as_of_date := 5, share_value := 110,
    fund_accumulated := 0, shares_amount := 0, delta_previous := none,
    delta_since_origin := none, created_at := 2 }

/-- A database where fund 1 has two NAV rows sharing the maximal date. -/
def dbNavTie : Db :=
  { accounts := [], app_users := [], cash_movements := [],
    fund_share_movements := [], funds := [], fund_navs := [navTieOld, navTieNew],
    hasCommissionRateColumn := false }

/-- Counterexample to C2 as stated: both rows of fund 1 share the maximal
`as_of_date` and the second row has the later `created_at`, yet the resolution
selects the first row, not the latest-created one. -/
theorem c2_created_at_tiebreak_counterexample :
    navTieOld.as_of_date = navTieNew.as_of_date ∧
    navTieOld.created_at < navTieNew.created_at ∧
    navTieNew ∈ dbNavTie.fund_navs ∧
    latestNavForFund dbNavTie 1 = some navTieOld ∧
    navTieOld ≠ navTieNew := by decide

/-! ### C10: fund-share-movement round trip -/

/-- C10. Creating a `FundShareMovement` and re-reading it by id returns the
very record the creation returned, whose decimal-string fields
`shares_change` / `share_price` / `total_amount` are exactly those supplied. -/
theorem c10_fund_share_movement_roundtrip (st : FsmStore)
    (d : FundShareMovementCreateData)
    (hfresh : ∀ r ∈ st.rows, r.id ≠ st.next_id) :
    find_fund_share_movement_by_id (create_fund_share_movement st d).1
        (create_fund_share_movement st d).2.id
      = some (create_fund_share_movement st d).2 ∧
    (create_fund_share_movement st d).2.shares_change = d.shares_change ∧
    (create_fund_share_movement st d).2.share_price = d.share_price ∧
    (create_fund_share_movement st d).2.total_amount = d.total_amount := by
  refine ⟨?_, rfl, rfl, rfl⟩
  simp only [create_fund_share_movement, find_fund_share_movement_by_id]
  rw [List.find?_append]
  have h1 : st.rows.find? (fun r => r.id == st.next_id) = none :=
    List.find?_eq_none.mpr (fun x hx => by simpa using hfresh x hx)
  rw [h1]
  simp [List.find?]

/-- An empty movements table with the id sequence at 1. -/
def fsmStore0 : FsmStore := { rows := [], next_id := 1, clock := 0 }

/-- A concrete creation payload with non-trivial decimal strings. -/
def fsmCreate0 : FundShareMovementCreateData :=
  { account_id := 1, fund_id := 2, cash_movement_id := none,
    type := "subscription", shares_change := "10.500", share_price := "2.0000",
    total_amount := "21.000000", effective_date := 20240101 }

/-- Witness for C10 at a concrete store and payload. -/
theorem c10_fund_share_movement_roundtrip_witness :
    find_fund_share_movement_by_id (create_fund_share_movement fsmStore0 fsmCreate0).1
        (create_fund_share_movement fsmStore0 fsmCreate0).2.id
      = some (create_fund_share_movement fsmStore0 fsmCreate0).2 ∧
    (create_fund_share_movement fsmStore0 fsmCreate0).2.shares_change
      = fsmCreate0.shares_change ∧
    (create_fund_share_movement fsmStore0 fsmCreate0).2.share_price
      = fsmCreate0.share_price ∧
    (create_fund_share_movement fsmStore0 fsmCreate0).2.total_amount
      = fsmCreate0.total_amount :=
  c10_fund_share_movement_roundtrip fsmStore0 fsmCreate0 (by simp [fsmStore0])

/-! ### C8: empty NAV history versus NotFound -/

/-- C8. Querying fund performance for a nonexistent fund id yields HTTP 404;
querying an existing fund with no NAV rows yields a result with `navs = []`
and an absent `latest_share_value`, not an error. -/
theorem c8_no_navs_vs_notfound (db : Db) (fid : Int) (limit : Option Nat) :
    (db.funds.find? (fun f => f.id == fid) = none →
      getFundPerformanceByIdEndpoint db fid limit = Except.error 404) ∧
    (∀ fr, db.funds.find? (fun f => f.id == fid) = some fr →
      db.fund_navs.filter (fun x => x.fund_id == fid) = [] →
        ∃ perf, get_fund_performance_by_id db fid limit = some perf ∧
          perf.navs = [] ∧ perf.latest_share_value = none ∧
          getFundPerformanceByIdEndpoint db fid limit = Except.ok perf) := by
  constructor
  · intro h
    simp [getFundPerformanceByIdEndpoint, get_fund_performance_by_id, h]
  · intro fr hfr hnil
    have hrows : navRowsDescFor db fid = [] := by
      simp [navRowsDescFor, hnil, List.insertionSort]
    have hperf : get_fund_performance_by_id db fid limit =
        some { fund_id := fid, fund_name := fr.name, currency := fr.currency,
               latest_share_value := none, navs := [] } := by
      simp [get_fund_performance_by_id, hfr, hrows, sortPointsAsc,
        List.insertionSort]
    exact ⟨_, hperf, rfl, rfl, by simp [getFundPerformanceByIdEndpoint, hperf]⟩

/-! ### Lemmas about the position aggregation -/

/-- The CASE-expression sum over a list of movements equals the subscription
sum minus the redemption sum (movements of any other type contribute zero). -/
theorem sum_shareContribution (l : List FundShareMovementRow) :
    (l.map shareContribution).sum =
      ((l.filter (fun m => m.type == "subscription")).map
        (fun m => m.shares_change)).sum -
      ((l.filter (fun m => m.type == "redemption")).map
        (fun m => m.shares_change)).sum := by
  induction l with
  | nil => simp
  | cons m l ih =>
      by_cases h1 : m.type = "subscription"
      · simp [List.filter_cons, shareContribution, h1, ih]
        ring
      · by_cases h2 : m.type = "redemption"
        · simp [List.filter_cons, shareContribution, h1, h2, ih]
          ring
        · simp [List.filter_cons, shareContribution, h1, h2, ih]

/-- Net shares of a pair, as the claim states them. -/
theorem netSharesPair_eq (db : Db) (aid fid : Int) :
    netSharesPair db aid fid =
      subscriptionSum db aid fid - redemptionSum db aid fid :=
  sum_shareContribution _

/-- When the pair itself passes the join conditions, computing its net shares
over the joined movements and over the whole table agree. -/
theorem netSharesJoined_eq (db : Db) (fu : Option Int) (aid fid : Int)
    (hacct : accountPasses db fu aid = true)
    (hfund : fundExistsB db fid = true) :
    netSharesJoined db fu aid fid = netSharesPair db aid fid := by
  unfold netSharesJoined netSharesPair fsmJoined
  rw [List.filter_filter]
  have hfe : List.filter
      (fun m => (m.account_id == aid && m.fund_id == fid) &&
        (accountPasses db fu m.account_id && fundExistsB db m.fund_id))
      db.fund_share_movements =
      List.filter (fun m => m.account_id == aid && m.fund_id == fid)
        db.fund_share_movements := by
    apply List.filter_congr
    intro m _
    by_cases hp : (m.account_id == aid && m.fund_id == fid) = true
    · have ha : m.account_id = aid := by
        have := (Bool.and_eq_true _ _).mp hp
        simpa using this.1
      have hf : m.fund_id = fid := by
        have := (Bool.and_eq_true _ _).mp hp
        simpa using this.2
      rw [hp, ha, hf, hacct, hfund]
      rfl
    · have hp' : (m.account_id == aid && m.fund_id == fid) = false :=
        Bool.eq_false_iff.mpr hp
      rw [hp']
      rfl
  rw [hfe]

/-- A pair whose net shares over the whole table are non-zero has at least one
movement. -/
theorem exists_movement_of_netSharesPair_ne_zero (db : Db) (aid fid : Int)
    (h : netSharesPair db aid fid ≠ 0) :
    ∃ m ∈ db.fund_share_movements,
      (m.account_id == aid && m.fund_id == fid) = true := by
  by_contra hc
  push_neg at hc
  have hnil : db.fund_share_movements.filter
      (fun m => m.account_id == aid && m.fund_id == fid) = [] := by
    apply List.filter_eq_nil_iff.mpr
    intro a ha
    simpa using hc a ha
  exact h (by simp [netSharesPair, hnil])

/-! ### C3: the position list -/

/-- C3. Every reported position carries net shares equal to the pair's
subscription total minus its redemption total and is non-zero (zero-net pairs
are omitted); the list is ordered by account id, then fund name. -/
theorem c3_position_aggregation (db : Db) (fu : Option Int) :
    (∀ p ∈ positionRows db fu,
        p.total_shares = subscriptionSum db p.account_id p.fund_id -
          redemptionSum db p.account_id p.fund_id ∧
        p.total_shares ≠ 0) ∧
    (positionRows db fu).Pairwise
      (fun p q => p.account_id < q.account_id ∨
        (p.account_id = q.account_id ∧ p.fund_name ≤ q.fund_name)) := by
  constructor
  · intro p hp
    have hp' := (List.perm_insertionSort _ _).mem_iff.mp hp
    have hpf := List.mem_filter.mp hp'
    obtain ⟨k, hk, hkp⟩ := List.mem_filterMap.mp hpf.1
    obtain ⟨f, hffind, hfp⟩ := Option.map_eq_some'.mp hkp
    have hkm := List.mem_dedup.mp hk
    obtain ⟨m, hm, hmk⟩ := List.mem_map.mp hkm
    have hmcond := (List.mem_filter.mp hm).2
    have hacct : accountPasses db fu k.1 = true := by
      have := (Bool.and_eq_true _ _).mp hmcond
      rw [← hmk]
      exact this.1
    have hfund : fundExistsB db k.2 = true := by
      have := (Bool.and_eq_true _ _).mp hmcond
      rw [← hmk]
      exact this.2
    have hshares : p.total_shares = netSharesPair db k.1 k.2 := by
      rw [← hfp]
      exact netSharesJoined_eq db fu k.1 k.2 hacct hfund
    have hids : p.account_id = k.1 ∧ p.fund_id = k.2 := by
      rw [← hfp]
      exact ⟨rfl, rfl⟩
    refine ⟨?_, ?_⟩
    · rw [hids.1, hids.2, hshares, netSharesPair_eq]
    · have := hpf.2
      simpa using this
  · exact List.Pairwise.imp (fun h => h)
      (List.sorted_insertionSort
        (lex2 (fun p : PosRow => p.account_id) (fun p => p.fund_name)) _)

/-- A concrete user. -/
def userW : AppUserRow := { id := 1, full_name := "Ann", email := "ann at example" }

/-- A concrete account of that user with a 20% commission rate. -/
def acctW : AccountRow :=
  { id := 1, user_id := 1, account_number := "A-1", commission_rate := some (1/5) }

/-- A concrete fund. -/
def fundW : FundRow := { id := 3, name := "Growth", currency := "USD" }

/-- A NAV observation for that fund valuing a share at 120. -/
def navW : NavRow :=
  { id := 1, fund_id := 3, as_of_date := 1, share_value := 120,
    fund_accumulated := 0, shares_amount := 0, delta_previous := none,
    delta_since_origin := none, created_at := 1 }

/-- A deposit of 1000 into the account. -/
def cashW : CashMovementRow :=
  { id := 1, account_id := 1, type := "deposit", amount := 1000 }

/-- A subscription of 10 shares of the fund. -/
def fsmW : FundShareMovementRow :=
  { id := 1, account_id := 1, fund_id := 3, type := "subscription",
    shares_change := 10 }

/-- The concrete database: one user, one account, a 1000 deposit, 10 shares of
fund 3 at NAV 120. -/
def dbW : Db :=
  { accounts := [acctW], app_users := [userW], cash_movements := [cashW],
    fund_share_movements := [fsmW], funds := [fundW], fund_navs := [navW],
    hasCommissionRateColumn := true }

/-- The position row the engine reports on `dbW`. -/
def posW : PosRow :=
  { account_id := 1, fund_id := 3, fund_name := "Growth", currency := "USD",
    total_shares := 10 }

/-- Witness for C3 at the concrete database. -/
theorem c3_position_aggregation_witness :
    posW ∈ positionRows dbW none ∧
    (posW.total_shares = subscriptionSum dbW posW.account_id posW.fund_id -
        redemptionSum dbW posW.account_id posW.fund_id ∧
      posW.total_shares ≠ 0) := by
  have hm : posW ∈ positionRows dbW none := by
    norm_num [positionRows, positionGroupKeys, fsmJoined, accountPasses,
      fundExistsB, userMatches, netSharesJoined, shareContribution, dbW, acctW,
      userW, fundW, cashW, fsmW, posW, List.insertionSort, List.orderedInsert,
      List.filter_cons, List.dedup, List.find?]
  exact ⟨hm, (c3_position_aggregation dbW none).1 posW hm⟩

/-! ### C9: negative net positions are reported, not clamped -/

/-- C9. A pair whose redemption share total exceeds its subscription share
total is reported with the negative net share figure (and, when a latest NAV
exists, the correspondingly computed — and for a positive share value
negative — market value); it is neither clamped to zero nor omitted. -/
theorem c9_negative_net_shares (db : Db) (fu : Option Int) (aid fid : Int)
    (hacct : accountPasses db fu aid = true)
    (hfund : fundExistsB db fid = true)
    (hneg : subscriptionSum db aid fid < redemptionSum db aid fid) :
    ∃ p ∈ positionRows db fu, p.account_id = aid ∧ p.fund_id = fid ∧
      p.total_shares = subscriptionSum db aid fid - redemptionSum db aid fid ∧
      p.total_shares < 0 ∧
      ∀ nav, latestNavForFund db fid = some nav →
        (toFundPosition db p).market_value =
          some (p.total_shares * nav.share_value) ∧
        (0 < nav.share_value → (toFundPosition db p).market_value.getD 0 < 0) := by
  have hnegpair : netSharesPair db aid fid < 0 := by
    rw [netSharesPair_eq]
    linarith
  have hne : netSharesPair db aid fid ≠ 0 := ne_of_lt hnegpair
  obtain ⟨m, hm, hmc⟩ := exists_movement_of_netSharesPair_ne_zero db aid fid hne
  have hma : m.account_id = aid := by
    have := (Bool.and_eq_true _ _).mp hmc
    simpa using this.1
  have hmf : m.fund_id = fid := by
    have := (Bool.and_eq_true _ _).mp hmc
    simpa using this.2
  have hmj : m ∈ fsmJoined db fu := by
    apply List.mem_filter.mpr
    refine ⟨hm, ?_⟩
    rw [hma, hmf, hacct, hfund]
    rfl
  have hkey : (aid, fid) ∈ positionGroupKeys db fu := by
    apply List.mem_dedup.mpr
    exact List.mem_map.mpr ⟨m, hmj, by rw [hma, hmf]⟩
  have hex : ∃ f ∈ db.funds, (f.id == (aid, fid).2) = true := by
    obtain ⟨f, hf, he⟩ := List.any_eq_true.mp hfund
    exact ⟨f, hf, he⟩
  obtain ⟨f0, hf0⟩ := Option.isSome_iff_exists.mp (List.find?_isSome.mpr hex)
  have hshares : netSharesJoined db fu aid fid = netSharesPair db aid fid :=
    netSharesJoined_eq db fu aid fid hacct hfund
  have hshne : netSharesJoined db fu aid fid ≠ 0 := by
    rw [hshares]; exact hne
  refine ⟨{ account_id := aid, fund_id := fid, fund_name := f0.name,
            currency := f0.currency,
            total_shares := netSharesJoined db fu aid fid }, ?_, rfl, rfl, ?_, ?_, ?_⟩
  · apply (List.perm_insertionSort _ _).mem_iff.mpr
    apply List.mem_filter.mpr
    constructor
    · exact List.mem_filterMap.mpr ⟨(aid, fid), hkey, by rw [hf0]; rfl⟩
    · simpa using hshne
  · rw [hshares, netSharesPair_eq]
  · rw [hshares]
    exact hnegpair
  · intro nav hnav
    have hmv : (toFundPosition db
        { account_id := aid, fund_id := fid, fund_name := f0.name,
          currency := f0.currency,
          total_shares := netSharesJoined db fu aid fid : PosRow }).market_value =
        some (netSharesJoined db fu aid fid * nav.share_value) := by
      unfold toFundPosition
      rw [hnav]
    refine ⟨hmv, ?_⟩
    intro hpos
    rw [hmv]
    have : netSharesJoined db fu aid fid < 0 := by rw [hshares]; exact hnegpair
    simpa using mul_neg_of_neg_of_pos this hpos

/-- A redemption of 5 shares of fund 3 by account 1 (against the 10-share
subscription, this alone leaves a negative balance when doubled). -/
def fsmRedW : FundShareMovementRow :=
  { id := 2, account_id := 1, fund_id := 3, type := "redemption",
    shares_change := 13 }

/-- A database where account 1 redeemed 13 shares but subscribed only 10. -/
def dbNeg : Db :=
  { accounts := [acctW], app_users := [userW], cash_movements := [],
    fund_share_movements := [fsmW, fsmRedW], funds := [fundW],
    fund_navs := [navW], hasCommissionRateColumn := true }

/-- Witness for C9: on `dbNeg` the hypotheses hold concretely. -/
theorem c9_negative_net_shares_witness :
    ∃ p ∈ positionRows dbNeg none, p.account_id = 1 ∧ p.fund_id = 3 ∧
      p.total_shares = subscriptionSum dbNeg 1 3 - redemptionSum dbNeg 1 3 ∧
      p.total_shares < 0 ∧
      ∀ nav, latestNavForFund dbNeg 3 = some nav →
        (toFundPosition dbNeg p).market_value =
          some (p.total_shares * nav.share_value) ∧
        (0 < nav.share_value → (toFundPosition dbNeg p).market_value.getD 0 < 0) :=
  c9_negative_net_shares dbNeg none 1 3 (by decide) (by decide)
    (by
      have h1 : subscriptionSum dbNeg 1 3 = 10 := by
        simp +decide [subscriptionSum, dbNeg, fsmW, fsmRedW, List.filter_cons]
      have h2 : redemptionSum dbNeg 1 3 = 13 := by
        simp +decide [redemptionSum, dbNeg, fsmW, fsmRedW, List.filter_cons]
      rw [h1, h2]
      norm_num)

/-! ### C1 and C7: the valuation and commission engine -/

/-- The code's skip-unresolved market-value fold agrees, from any accumulator,
with summing `market_value.getD 0` over the built `FundPosition`s. -/
theorem foldl_marketValue_aux (db : Db) (l : List PosRow) (acc : Rat) :
    l.foldl
      (fun acc p =>
        match latestNavForFund db p.fund_id with
        | none => acc
        | some nav => acc + p.total_shares * nav.share_value) acc =
    (l.map (toFundPosition db)).foldl
      (fun acc p => acc + p.market_value.getD 0) acc := by
  induction l generalizing acc with
  | nil => rfl
  | cons p l ih =>
      rw [List.map_cons, List.foldl_cons, List.foldl_cons]
      cases hnav : latestNavForFund db p.fund_id with
      | none =>
          have hmv : (toFundPosition db p).market_value = none := by
            simp only [toFundPosition, hnav]
          simp only [hnav, hmv, Option.getD_none, add_zero]
          exact ih acc
      | some nav =>
          have hmv : (toFundPosition db p).market_value =
              some (p.total_shares * nav.share_value) := by
            simp only [toFundPosition, hnav]
          simp only [hnav, hmv, Option.getD_some]
          exact ih _

/-- The accumulated `total_market_value` equals the sum of the resolved
market values of the account's reported positions. -/
theorem totalMarketValueFor_eq (db : Db) (fu : Option Int) (aid : Int) :
    totalMarketValueFor db fu aid =
      ((positionsFor db fu aid).map (toFundPosition db)).foldl
        (fun acc p => acc + p.market_value.getD 0) 0 :=
  foldl_marketValue_aux db (positionsFor db fu aid) 0

/-- C1. Every reported account summary satisfies the commission, fee and
net-invested formulas: with D, W, F the account's deposit/withdrawal/fee
totals, R its effective commission rate (0 when unset or the column is
absent) and tmv the sum of the resolved position market values,
`total_fees = F + (if tmv - (D - W - F) > 0 then (tmv - (D - W - F)) * R
else 0)` and `net_invested = D - W - total_fees`, in exact arithmetic. -/
theorem c1_account_summary_formulas (db : Db) (fu : Option Int)
    (s : AccountSummary) (hs : s ∈ getAccountSummaries db fu) :
    ∃ a ∈ db.accounts, a.id = s.account_id ∧
      s.total_deposits = cashTotal db s.account_id "deposit" ∧
      s.total_withdrawals = cashTotal db s.account_id "withdrawal" ∧
      s.total_fees = cashTotal db s.account_id "fee" +
        (if 0 < s.positions.foldl (fun acc p => acc + p.market_value.getD 0) 0 -
              (cashTotal db s.account_id "deposit" -
               cashTotal db s.account_id "withdrawal" -
               cashTotal db s.account_id "fee")
         then (s.positions.foldl (fun acc p => acc + p.market_value.getD 0) 0 -
              (cashTotal db s.account_id "deposit" -
               cashTotal db s.account_id "withdrawal" -
               cashTotal db s.account_id "fee")) * effectiveCommissionRate db a
         else 0) ∧
      s.net_invested = cashTotal db s.account_id "deposit" -
        cashTotal db s.account_id "withdrawal" - s.total_fees := by
  obtain ⟨row, hrow, rfl⟩ := List.mem_map.mp hs
  have hrow' := (List.perm_insertionSort _ _).mem_iff.mp hrow
  obtain ⟨a, haf, hmap⟩ := List.mem_filterMap.mp hrow'
  obtain ⟨u, hufind, hrow_eq⟩ := Option.map_eq_some'.mp hmap
  have hamem : a ∈ db.accounts := (List.mem_filter.mp haf).1
  subst hrow_eq
  refine ⟨a, hamem, rfl, rfl, rfl, ?_, ?_⟩
  · show (buildSummary db fu _).total_fees = _
    simp only [buildSummary, mkAccountSummary]
    rw [totalMarketValueFor_eq]
    rfl
  · show (buildSummary db fu _).net_invested = _
    simp only [buildSummary, mkAccountSummary]

/-- The summary the engine computes on `dbW` for account 1. -/
def summaryW : AccountSummary :=
  { account_id := 1, account_number := "A-1", total_deposits := 1000,
    total_withdrawals := 0, total_fees := 40, net_invested := 960,
    positions := [{ fund_id := 3, fund_name := "Growth", currency := "USD",
                    total_shares := 10, latest_share_value := some 120,
                    market_value := some 1200 }],
    user_full_name := some "Ann", user_email := some "ann at example" }

/-- The account aggregation row the first query yields on `dbW`. -/
def rowW : AcctAggRow :=
  { account_id := 1, account_number := "A-1", commission_rate := some (1/5),
    full_name := "Ann", email := "ann at example", total_deposits := 1000,
    total_withdrawals := 0, total_fees := 0 }

/-- Evaluation of the engine on `dbW`: a 1000 deposit, market value 1200 and a
20% rate yield commission 40, total fees 40 and net invested 960. -/
theorem getAccountSummaries_dbW : getAccountSummaries dbW none = [summaryW] := by
  have hkeys : positionGroupKeys dbW none = [(1, 3)] := by decide
  have hmvs : dbW.fund_share_movements = [fsmW] := rfl
  have hfunds : dbW.funds = [fundW] := rfl
  have haccts : dbW.accounts = [acctW] := rfl
  have husers : dbW.app_users = [userW] := rfl
  have hcms : dbW.cash_movements = [cashW] := rfl
  have hcol : dbW.hasCommissionRateColumn = true := rfl
  have hap : accountPasses dbW none 1 = true := by decide
  have hfe : fundExistsB dbW 3 = true := by decide
  have hns : netSharesJoined dbW none 1 3 = 10 := by
    unfold netSharesJoined fsmJoined
    rw [hmvs]
    simp +decide [fsmW, hap, hfe, shareContribution, List.filter_cons]
  have hpos : positionRows dbW none = [posW] := by
    unfold positionRows
    rw [hkeys, hfunds]
    simp +decide [List.filterMap_cons, List.find?, fundW, hns, posW,
      List.insertionSort, List.orderedInsert, List.filter_cons]
  have hposFor : positionsFor dbW none 1 = [posW] := by
    rw [positionsFor, hpos]
    simp +decide [List.filter_cons, posW]
  have hnav : latestNavForFund dbW 3 = some navW := by decide
  have htmv : totalMarketValueFor dbW none 1 = 1200 := by
    rw [totalMarketValueFor, hposFor]
    simp only [List.foldl_cons, List.foldl_nil, posW]
    rw [hnav]
    norm_num [navW]
  have hcashD : cashTotal dbW 1 "deposit" = 1000 := by
    unfold cashTotal
    rw [hcms]
    simp +decide [cashW, List.filter_cons]
  have hcashWd : cashTotal dbW 1 "withdrawal" = 0 := by
    unfold cashTotal
    rw [hcms]
    simp +decide [cashW, List.filter_cons]
  have hcashF : cashTotal dbW 1 "fee" = 0 := by
    unfold cashTotal
    rw [hcms]
    simp +decide [cashW, List.filter_cons]
  have hrows : accountRowsQuery dbW none = [rowW] := by
    unfold accountRowsQuery
    rw [haccts]
    simp +decide [acctW, userW, husers, hcol, userMatches, List.filter_cons,
      List.find?, hcashD, hcashWd, hcashF, rowW, List.insertionSort,
      List.orderedInsert]
  have hbs : buildSummary dbW none rowW = summaryW := by
    simp only [buildSummary, mkAccountSummary, rowW, hposFor, htmv]
    norm_num [toFundPosition, hnav, posW, navW, summaryW]
  rw [getAccountSummaries, hrows, List.map_cons, List.map_nil, hbs]

/-- Witness for C1 at the concrete database `dbW`. -/
theorem c1_account_summary_formulas_witness :
    summaryW ∈ getAccountSummaries dbW none ∧
    ∃ a ∈ dbW.accounts, a.id = summaryW.account_id ∧
      summaryW.total_deposits = cashTotal dbW summaryW.account_id "deposit" ∧
      summaryW.total_withdrawals = cashTotal dbW summaryW.account_id "withdrawal" ∧
      summaryW.total_fees = cashTotal dbW summaryW.account_id "fee" +
        (if 0 < summaryW.positions.foldl (fun acc p => acc + p.market_value.getD 0) 0 -
              (cashTotal dbW summaryW.account_id "deposit" -
               cashTotal dbW summaryW.account_id "withdrawal" -
               cashTotal dbW summaryW.account_id "fee")
         then (summaryW.positions.foldl (fun acc p => acc + p.market_value.getD 0) 0 -
              (cashTotal dbW summaryW.account_id "deposit" -
               cashTotal dbW summaryW.account_id "withdrawal" -
               cashTotal dbW summaryW.account_id "fee")) * effectiveCommissionRate dbW a
         else 0) ∧
      summaryW.net_invested = cashTotal dbW summaryW.account_id "deposit" -
        cashTotal dbW summaryW.account_id "withdrawal" - summaryW.total_fees := by
  have hm : summaryW ∈ getAccountSummaries dbW none := by
    rw [getAccountSummaries_dbW]
    exact List.mem_singleton.mpr rfl
  exact ⟨hm, c1_account_summary_formulas dbW none summaryW hm⟩

/-- C7. A reported position whose fund has no resolved latest NAV still
appears in the account summary, with `market_value = None` and
`latest_share_value = None` (never zero or a fabricated number), and the
`total_market_value` aggregate equals the sum of `market_value.getD 0` over
the reported positions — an unresolved position contributes exactly 0. -/
theorem c7_unresolved_nav_positions (db : Db) (fu : Option Int)
    (s : AccountSummary) (hs : s ∈ getAccountSummaries db fu) :
    (∀ pr ∈ positionsFor db fu s.account_id,
        latestNavForFund db pr.fund_id = none →
          toFundPosition db pr ∈ s.positions ∧
          (toFundPosition db pr).market_value = none ∧
          (toFundPosition db pr).latest_share_value = none) ∧
    totalMarketValueFor db fu s.account_id =
      s.positions.foldl (fun acc p => acc + p.market_value.getD 0) 0 := by
  obtain ⟨row, hrow, rfl⟩ := List.mem_map.mp hs
  constructor
  · intro pr hpr hnav
    refine ⟨?_, ?_, ?_⟩
    · exact List.mem_map_of_mem (toFundPosition db) hpr
    · simp only [toFundPosition, hnav]
    · simp only [toFundPosition, hnav]
  · exact totalMarketValueFor_eq db fu row.account_id

/-- The database `dbW` with the NAV history removed: fund 3 has no NAV. -/
def dbNoNav : Db :=
  { accounts := [acctW], app_users := [userW], cash_movements := [cashW],
    fund_share_movements := [fsmW], funds := [fundW], fund_navs := [],
    hasCommissionRateColumn := true }

/-- The summary the engine computes on `dbNoNav`: the position surfaces with
null latest value and market value, and no commission is charged. -/
def summaryNoNav : AccountSummary :=
  { account_id := 1, account_number := "A-1", total_deposits := 1000,
    total_withdrawals := 0, total_fees := 0, net_invested := 1000,
    positions := [{ fund_id := 3, fund_name := "Growth", currency := "USD",
                    total_shares := 10, latest_share_value := none,
                    market_value := none }],
    user_full_name := some "Ann", user_email := some "ann at example" }

/-- Evaluation of the engine on `dbNoNav`. -/
theorem getAccountSummaries_dbNoNav :
    getAccountSummaries dbNoNav none = [summaryNoNav] := by
  have hkeys : positionGroupKeys dbNoNav none = [(1, 3)] := by decide
  have hmvs : dbNoNav.fund_share_movements = [fsmW] := rfl
  have hfunds : dbNoNav.funds = [fundW] := rfl
  have haccts : dbNoNav.accounts = [acctW] := rfl
  have hcms : dbNoNav.cash_movements = [cashW] := rfl
  have hcol : dbNoNav.hasCommissionRateColumn = true := rfl
  have hap : accountPasses dbNoNav none 1 = true := by decide
  have hfe : fundExistsB dbNoNav 3 = true := by decide
  have hns : netSharesJoined dbNoNav none 1 3 = 10 := by
    unfold netSharesJoined fsmJoined
    rw [hmvs]
    simp +decide [fsmW, hap, hfe, shareContribution, List.filter_cons]
  have hpos : positionRows dbNoNav none = [posW] := by
    unfold positionRows
    rw [hkeys, hfunds]
    simp +decide [List.filterMap_cons, List.find?, fundW, hns, posW,
      List.insertionSort, List.orderedInsert, List.filter_cons]
  have hposFor : positionsFor dbNoNav none 1 = [posW] := by
    rw [positionsFor, hpos]
    simp +decide [List.filter_cons, posW]
  have hnav : latestNavForFund dbNoNav 3 = none := by decide
  have htmv : totalMarketValueFor dbNoNav none 1 = 0 := by
    rw [totalMarketValueFor, hposFor]
    simp only [List.foldl_cons, List.foldl_nil, posW]
    rw [hnav]
  have hcashD : cashTotal dbNoNav 1 "deposit" = 1000 := by
    unfold cashTotal
    rw [hcms]
    simp +decide [cashW, List.filter_cons]
  have hcashWd : cashTotal dbNoNav 1 "withdrawal" = 0 := by
    unfold cashTotal
    rw [hcms]
    simp +decide [cashW, List.filter_cons]
  have hcashF : cashTotal dbNoNav 1 "fee" = 0 := by
    unfold cashTotal
    rw [hcms]
    simp +decide [cashW, List.filter_cons]
  have hrows : accountRowsQuery dbNoNav none = [rowW] := by
    unfold accountRowsQuery
    rw [haccts]
    simp +decide [acctW, userW, (rfl : dbNoNav.app_users = [userW]), hcol,
      userMatches, List.filter_cons, List.find?, hcashD, hcashWd, hcashF, rowW,
      List.insertionSort, List.orderedInsert]
  have hbs : buildSummary dbNoNav none rowW = summaryNoNav := by
    simp only [buildSummary, mkAccountSummary, rowW, hposFor, htmv]
    norm_num [toFundPosition, hnav, posW, summaryNoNav]
  rw [getAccountSummaries, hrows, List.map_cons, List.map_nil, hbs]

/-- Witness for C7 at the concrete database `dbNoNav`. -/
theorem c7_unresolved_nav_positions_witness :
    (∀ pr ∈ positionsFor dbNoNav none summaryNoNav.account_id,
        latestNavForFund dbNoNav pr.fund_id = none →
          toFundPosition dbNoNav pr ∈ summaryNoNav.positions ∧
          (toFundPosition dbNoNav pr).market_value = none ∧
          (toFundPosition dbNoNav pr).latest_share_value = none) ∧
    totalMarketValueFor dbNoNav none summaryNoNav.account_id =
      summaryNoNav.positions.foldl (fun acc p => acc + p.market_value.getD 0) 0 :=
  c7_unresolved_nav_positions dbNoNav none summaryNoNav
    (by rw [getAccountSummaries_dbNoNav]; exact List.mem_singleton.mpr rfl)

/-! ### C4: the commission_rate field of the summary result -/

/-- The account `acctW` with its commission rate changed to 1/2. -/
def acctWHalf : AccountRow :=
  { id := 1, user_id := 1, account_number := "A-1", commission_rate := some (1/2) }

/-- The summary of an account with no movements at all. -/
def summaryNoMv : AccountSummary :=
  { account_id := 1, account_number := "A-1", total_deposits := 0,
    total_withdrawals := 0, total_fees := 0, net_invested := 0,
    positions := [], user_full_name := some "Ann",
    user_email := some "ann at example" }

/-- Database with `acctW` (rate 1/5) and no movements. -/
def dbRateA : Db :=
  { accounts := [acctW], app_users := [userW], cash_movements := [],
    fund_share_movements := [], funds := [], fund_navs := [],
    hasCommissionRateColumn := true }

/-- Database with `acctWHalf` (rate 1/2) and no movements. -/
def dbRateB : Db :=
  { accounts := [acctWHalf], app_users := [userW], cash_movements := [],
    fund_share_movements := [], funds := [], fund_navs := [],
    hasCommissionRateColumn := true }

/-- On a movement-free database for account 1 the engine yields the all-zero
summary, whatever the account's stored commission rate. -/
theorem getAccountSummaries_rate_only (a : AccountRow) (ha1 : a.id = 1)
    (ha2 : a.user_id = 1) (ha3 : a.account_number = "A-1") :
    getAccountSummaries
      { accounts := [a], app_users := [userW], cash_movements := [],
        fund_share_movements := [], funds := [], fund_navs := [],
        hasCommissionRateColumn := true } none = [summaryNoMv] := by
  norm_num +decide [getAccountSummaries, accountRowsQuery, buildSummary,
    mkAccountSummary, positionsFor, positionRows, positionGroupKeys, fsmJoined,
    totalMarketValueFor, cashTotal, userMatches, userW, ha1, ha2, ha3,
    summaryNoMv, List.insertionSort, List.orderedInsert, List.filter_cons,
    List.find?, List.filterMap_cons, List.dedup]

/-- C4 is violated by the code: the pydantic `AccountSummary` result type
declares no `commission_rate` field (the `commission_rate` key the engine puts
into `account_data` is silently dropped by pydantic), so two stores differing
only in the account's stored commission rate produce identical summary
results when no commission applies — the rate is not carried in the result. -/
theorem c4_commission_rate_dropped :
    "commission_rate" ∉ accountSummaryFieldNames ∧
    acctW.commission_rate ≠ acctWHalf.commission_rate ∧
    getAccountSummaries dbRateA none = getAccountSummaries dbRateB none := by
  refine ⟨by decide, ?_, ?_⟩
  · norm_num [acctW, acctWHalf]
  · unfold dbRateA dbRateB
    rw [getAccountSummaries_rate_only acctW rfl rfl rfl,
        getAccountSummaries_rate_only acctWHalf rfl rfl rfl]

/-! ### C5: the most-recent-N window of fund performance -/

/-- In a list sorted by descending date, any element of the first `n` entries
has fewer than `n` strictly more recent elements in the whole list. -/
theorem sortedDesc_take_countP (l : List NavRow)
    (hs : l.Pairwise (fun a b => b.as_of_date ≤ a.as_of_date))
    (n : Nat) (r : NavRow) (hr : r ∈ l.take n) :
    l.countP (fun q => decide (r.as_of_date < q.as_of_date)) < n := by
  induction l generalizing n with
  | nil => simp at hr
  | cons x xs ih =>
      cases n with
      | zero => simp at hr
      | succ m =>
          rw [List.take_succ_cons] at hr
          have hhead : ∀ b ∈ xs, b.as_of_date ≤ x.as_of_date :=
            (List.pairwise_cons.mp hs).1
          have htail := (List.pairwise_cons.mp hs).2
          rcases List.mem_cons.mp hr with rfl | hr
          · have hzero : xs.countP (fun q => decide (r.as_of_date < q.as_of_date)) = 0 := by
              apply List.countP_eq_zero.mpr
              intro q hq
              simpa using not_lt.mpr (hhead q hq)
            rw [List.countP_cons, hzero]
            simp
          · have hlt := ih htail m hr
            rw [List.countP_cons]
            split <;> omega

/-- C5. For an existing fund and limit, the returned NAV sequence is sorted
ascending by date, has `min limit count` points, consists of the first
`limit` rows of the descending-date query (each of which is at least as
recent as every row the window cuts off), and every returned point has fewer
than `limit` strictly more recent NAV rows — i.e. the window is the most
recent N, re-sorted ascending. -/
theorem c5_performance_most_recent_window (db : Db) (fid : Int)
    (limit : Option Nat) (fr : FundRow)
    (hfr : db.funds.find? (fun f => f.id == fid) = some fr) :
    ∃ perf, get_fund_performance_by_id db fid limit = some perf ∧
      perf.navs.Pairwise (fun a b => a.as_of_date ≤ b.as_of_date) ∧
      perf.navs.length =
        min (effLimit limit)
          (db.fund_navs.filter (fun x => x.fund_id == fid)).length ∧
      perf.navs.Perm
        (((navRowsDescFor db fid).take (effLimit limit)).map toNavPoint) ∧
      (∀ a ∈ (navRowsDescFor db fid).take (effLimit limit),
        ∀ b ∈ (navRowsDescFor db fid).drop (effLimit limit),
          b.as_of_date ≤ a.as_of_date) ∧
      ∀ p ∈ perf.navs,
        ((db.fund_navs.filter (fun x => x.fund_id == fid)).filter
          (fun q => decide (p.as_of_date < q.as_of_date))).length <
          effLimit limit := by
  have hperf : get_fund_performance_by_id db fid limit =
      some { fund_id := fid, fund_name := fr.name, currency := fr.currency,
             latest_share_value :=
               (sortPointsAsc (((navRowsDescFor db fid).take (effLimit limit)).map
                 toNavPoint)).getLast?.map (fun p => p.share_value),
             navs := sortPointsAsc (((navRowsDescFor db fid).take (effLimit limit)).map
               toNavPoint) } := by
    simp [get_fund_performance_by_id, hfr]
  have hdesc : (navRowsDescFor db fid).Pairwise
      (fun a b => b.as_of_date ≤ a.as_of_date) :=
    List.Pairwise.imp (fun h => h)
      (List.sorted_insertionSort (keyDescLE (fun r : NavRow => r.as_of_date)) _)
  have hpermD : (navRowsDescFor db fid).Perm
      (db.fund_navs.filter (fun x => x.fund_id == fid)) :=
    List.perm_insertionSort _ _
  refine ⟨_, hperf, ?_, ?_, ?_, ?_, ?_⟩
  · exact List.Pairwise.imp (fun h => h)
      (List.sorted_insertionSort (keyLE (fun p : FundNavPoint => p.as_of_date)) _)
  · show (sortPointsAsc (((navRowsDescFor db fid).take (effLimit limit)).map
      toNavPoint)).length = _
    have hlen : (sortPointsAsc (((navRowsDescFor db fid).take (effLimit limit)).map
        toNavPoint)).length =
        (((navRowsDescFor db fid).take (effLimit limit)).map toNavPoint).length :=
      (List.perm_insertionSort _ _).length_eq
    rw [hlen, List.length_map, List.length_take, hpermD.length_eq]
  · exact List.perm_insertionSort _ _
  · intro a ha b hb
    have := List.pairwise_append.mp
      ((List.take_append_drop (effLimit limit) (navRowsDescFor db fid)) ▸ hdesc)
    exact this.2.2 a ha b hb
  · intro p hp
    have hpX := (List.perm_insertionSort _ _).mem_iff.mp hp
    obtain ⟨r, hr, rfl⟩ := List.mem_map.mp hpX
    have hcount := sortedDesc_take_countP (navRowsDescFor db fid) hdesc
      (effLimit limit) r hr
    rw [← List.countP_eq_length_filter]
    rw [← hpermD.countP_eq]
    exact hcount

/-- The fund used for the window witness. -/
def fundP : FundRow := { id := 7, name := "Alpha", currency := "USD" }

/-- January, February and March NAV rows of fund 7. -/
def navJan : NavRow :=
  { id := 1, fund_id := 7, as_of_date := 1, share_value := 100,
    fund_accumulated := 0, shares_amount := 0, delta_previous := none,
    delta_since_origin := none, created_at := 1 }

/-- The February row. -/
def navFeb : NavRow :=
  { id := 2, fund_id := 7, as_of_date := 2, share_value := 110,
    fund_accumulated := 0, shares_amount := 0, delta_previous := none,
    delta_since_origin := none, created_at := 2 }

/-- The March row. -/
def navMar : NavRow :=
  { id := 3, fund_id := 7, as_of_date := 3, share_value := 120,
    fund_accumulated := 0, shares_amount := 0, delta_previous := none,
    delta_since_origin := none, created_at := 3 }

/-- Database with fund 7 and its three NAV observations. -/
def dbPerf : Db :=
  { accounts := [], app_users := [], cash_movements := [],
    fund_share_movements := [], funds := [fundP],
    fund_navs := [navJan, navFeb, navMar], hasCommissionRateColumn := false }

/-- Witness for C5: fund 7 with limit 2 over [Jan, Feb, Mar]. -/
theorem c5_performance_most_recent_window_witness :
    ∃ perf, get_fund_performance_by_id dbPerf 7 (some 2) = some perf ∧
      perf.navs.Pairwise (fun a b => a.as_of_date ≤ b.as_of_date) ∧
      perf.navs.length =
        min (effLimit (some 2))
          (dbPerf.fund_navs.filter (fun x => x.fund_id == 7)).length ∧
      perf.navs.Perm
        (((navRowsDescFor dbPerf 7).take (effLimit (some 2))).map toNavPoint) ∧
      (∀ a ∈ (navRowsDescFor dbPerf 7).take (effLimit (some 2)),
        ∀ b ∈ (navRowsDescFor dbPerf 7).drop (effLimit (some 2)),
          b.as_of_date ≤ a.as_of_date) ∧
      ∀ p ∈ perf.navs,
        ((dbPerf.fund_navs.filter (fun x => x.fund_id == 7)).filter
          (fun q => decide (p.as_of_date < q.as_of_date))).length <
          effLimit (some 2) :=
  c5_performance_most_recent_window dbPerf 7 (some 2) fundP (by decide)

/-- The limit-2 query on [Jan, Feb, Mar] returns exactly [Feb, Mar], still in
ascending date order, with March's value as the latest. -/
theorem fund_performance_limit2_feb_mar :
    get_fund_performance_by_id dbPerf 7 (some 2) =
      some { fund_id := 7, fund_name := "Alpha", currency := "USD",
             latest_share_value := some 120,
             navs := [toNavPoint navFeb, toNavPoint navMar] } := by decide

/-! ### C6: which funds appear in the all-funds performance list -/

/-- Inserting one joined row into the `funds_map` association list adds the
row's fund id to those present and nothing else. -/
theorem addPerfRow_fund_id_cases (limit : Option Nat)
    (acc : List FundPerformance) (r : PerfJoinRow) (fid : Int) :
    (∃ p ∈ addPerfRow limit acc r, p.fund_id = fid) ↔
      (∃ p ∈ acc, p.fund_id = fid) ∨ r.fund.id = fid := by
  induction acc with
  | nil => simp [addPerfRow]
  | cons p ps ih =>
      by_cases h : p.fund_id = r.fund.id
      · by_cases hl : limitAllows limit p.navs.length = true
        · have heq : addPerfRow limit (p :: ps) r =
              { p with navs := p.navs ++ [toNavPoint r.nav] } :: ps := by
            rw [addPerfRow, if_pos h, if_pos hl]
          rw [heq]
          simp only [List.exists_mem_cons_iff]
          constructor
          · rintro (hf | hE)
            · exact Or.inl (Or.inl hf)
            · exact Or.inl (Or.inr hE)
          · rintro ((hf | hE) | hrf)
            · exact Or.inl hf
            · exact Or.inr hE
            · exact Or.inl (h.trans hrf)
        · have heq : addPerfRow limit (p :: ps) r = p :: ps := by
            rw [addPerfRow, if_pos h, if_neg hl]
          rw [heq]
          simp only [List.exists_mem_cons_iff]
          constructor
          · rintro (hf | hE)
            · exact Or.inl (Or.inl hf)
            · exact Or.inl (Or.inr hE)
          · rintro ((hf | hE) | hrf)
            · exact Or.inl hf
            · exact Or.inr hE
            · exact Or.inl (h.trans hrf)
      · have heq : addPerfRow limit (p :: ps) r = p :: addPerfRow limit ps r := by
          rw [addPerfRow, if_neg h]
        rw [heq]
        simp only [List.exists_mem_cons_iff, ih]
        exact or_assoc.symm

/-- The funds present after folding all joined rows are those of the
accumulator plus those of the rows. -/
theorem foldl_addPerfRow_fund_ids (limit : Option Nat)
    (rows : List PerfJoinRow) (acc : List FundPerformance) (fid : Int) :
    (∃ p ∈ rows.foldl (addPerfRow limit) acc, p.fund_id = fid) ↔
      (∃ p ∈ acc, p.fund_id = fid) ∨ ∃ r ∈ rows, r.fund.id = fid := by
  induction rows generalizing acc with
  | nil => simp
  | cons r rows ih =>
      rw [List.foldl_cons, ih, addPerfRow_fund_id_cases]
      simp only [List.exists_mem_cons_iff]
      exact or_assoc

/-- C6 (amended). The all-funds performance operation returns an entry for a
fund exactly when the fund exists in the reference data AND has at least one
NAV observation: the inner join drops zero-NAV funds from the result list. -/
theorem c6_all_funds_performance_presence (db : Db) (limit : Option Nat)
    (fid : Int) :
    (∃ p ∈ get_fund_performance db limit, p.fund_id = fid) ↔
      ((∃ f ∈ db.funds, f.id = fid) ∧ ∃ n ∈ db.fund_navs, n.fund_id = fid) := by
  have hmap : (∃ p ∈ ((perfJoinRows db).foldl (addPerfRow limit) []).map
      (fun p => { p with navs := sortPointsAsc p.navs }), p.fund_id = fid) ↔
      ∃ q ∈ (perfJoinRows db).foldl (addPerfRow limit) [], q.fund_id = fid := by
    constructor
    · rintro ⟨p, hp, hpf⟩
      obtain ⟨q, hq, rfl⟩ := List.mem_map.mp hp
      exact ⟨q, hq, hpf⟩
    · rintro ⟨q, hq, hqf⟩
      exact ⟨_, List.mem_map_of_mem _ hq, hqf⟩
  have hjoin : (∃ r ∈ perfJoinRows db, r.fund.id = fid) ↔
      ((∃ f ∈ db.funds, f.id = fid) ∧ ∃ n ∈ db.fund_navs, n.fund_id = fid) := by
    constructor
    · rintro ⟨r, hr, hrf⟩
      have hr' := (List.perm_insertionSort _ _).mem_iff.mp hr
      obtain ⟨f, hf, hrm⟩ := List.mem_flatMap.mp hr'
      obtain ⟨n, hn, rfl⟩ := List.mem_map.mp hrm
      have hnf := (List.mem_filter.mp hn).2
      have hnmem := (List.mem_filter.mp hn).1
      refine ⟨⟨f, hf, hrf⟩, n, hnmem, ?_⟩
      have hnid : n.fund_id = f.id := by simpa using hnf
      rw [hnid]
      exact hrf
    · rintro ⟨⟨f, hf, hfid⟩, n, hn, hnf⟩
      refine ⟨{ fund := f, nav := n }, ?_, hfid⟩
      apply (List.perm_insertionSort _ _).mem_iff.mpr
      apply List.mem_flatMap.mpr
      refine ⟨f, hf, List.mem_map.mpr ⟨n, ?_, rfl⟩⟩
      apply List.mem_filter.mpr
      exact ⟨hn, by simp [hnf, hfid]⟩
  rw [get_fund_performance, hmap, foldl_addPerfRow_fund_ids]
  constructor
  · rintro (⟨p, hp, _⟩ | h)
    · simp at hp
    · exact hjoin.mp h
  · intro h
    exact Or.inr (hjoin.mpr h)

/-- A fund that exists in the reference data but has no NAV observations. -/
def fundLonely : FundRow := { id := 42, name := "Emerging", currency := "USD" }

/-- A database holding only that zero-NAV fund. -/
def dbLonely : Db :=
  { accounts := [], app_users := [], cash_movements := [],
    fund_share_movements := [], funds := [fundLonely], fund_navs := [],
    hasCommissionRateColumn := false }

/-- Counterexample to C6 as stated: fund 42 exists in the reference data but
the all-funds performance result is empty — the fund is omitted instead of
appearing with an empty NAV sequence. -/
theorem c6_zero_nav_fund_omitted_counterexample :
    fundLonely ∈ dbLonely.funds ∧
    get_fund_performance dbLonely (some 12) = [] ∧
    ¬ ∃ p ∈ get_fund_performance dbLonely (some 12),
        p.fund_id = fundLonely.id := by decide

end MrCap
